import Mathlib

/-!
Verification development for the `operator` audio engine (Rust).

The Rust sources are shallowly embedded here:
  * `f32` audio samples are modelled as exact rationals `ℚ`;
  * `usize` sample indices (`Time`) are modelled as `Nat`, with the release-mode
    behaviour of saturating patterns made explicit where the code relies on them;
  * the `HashMap`-backed clip database is modelled as an association list whose
    lookup agrees with the map semantics;
  * fallible operations return `Option`/`Except`.

Definitions follow `src/op_engine/src/{track,clip,clip_database,timeline,player,project}.rs`
and `src/op_engine/src/generator/sine.rs`.
-/

namespace Operator

/-- Time in samples, as in `op_engine/src/lib.rs` (`pub type Time = usize`).
Declared for documentation; definitions below use `Nat` directly so that the
arithmetic automation sees a single type. -/
abbrev Time := Nat

/-- A chunk of single-channel audio, `Clip` from `clip.rs`. Samples are `f32`
in the source, modelled as `ℚ`. -/
structure Clip where
  data : List ℚ
deriving DecidableEq

/-- Construct a clip from raw data, `Clip::new`. -/
def Clip.mk' (data : List ℚ) : Clip := ⟨data⟩

/-- Length of a clip, `Clip::len`. -/
def Clip.len (c : Clip) : Nat := c.data.length

/-- Identifier of a clip in the database; the `ClipId(usize)` newtype of
`clip_database.rs` modelled as a bare `Nat`. -/
abbrev ClipId := Nat

/-- The `HashMap<ClipId, Clip>` of `clip_database.rs`, modelled as an
association list; insertion prepends, so `lookup` sees the latest binding
for a key exactly like `HashMap::insert` overwriting. -/
structure ClipDatabase where
  clips : List (ClipId × Clip)
deriving DecidableEq

/-- Lookup in the database, `ClipDatabase::get`. -/
def ClipDatabase.get (db : ClipDatabase) (id : ClipId) : Option Clip :=
  db.clips.lookup id

/-- Insertion with a fresh id derived from the current size, `ClipDatabase::add`. -/
def ClipDatabase.add (db : ClipDatabase) (c : Clip) : ClipDatabase × ClipId :=
  let id := db.clips.length
  (⟨(id, c) :: db.clips⟩, id)

/-- A clip with a defined starting time, `ClipInstance` from `track.rs`. -/
structure ClipInstance where
  time : Nat
  clip_id : ClipId
deriving DecidableEq

/-- Length of the referenced clip, `ClipInstance::len`. -/
def ClipInstance.len (c : ClipInstance) (db : ClipDatabase) : Option Nat :=
  (db.get c.clip_id).map (fun cl => cl.data.length)

/-- First sample after the clip ends, `ClipInstance::end`. -/
def ClipInstance.endTime (c : ClipInstance) (db : ClipDatabase) : Option Nat :=
  (c.len db).map (fun l => c.time + l)

/-- The `Option<usize>` ordering used by `max_by_key`/comparisons in `track.rs`:
`None` is less than every `Some`. -/
def optLe : Option Nat → Option Nat → Bool
  | none, _ => true
  | some _, none => false
  | some a, some b => a ≤ b

/-- A sequence of clip instances, `Track` from `track.rs`. -/
structure Track where
  clips : List ClipInstance
deriving DecidableEq

/-- An empty track, `Track::new` / `Track::default`. -/
def Track.new : Track := ⟨[]⟩

/-- Append a clip instance, `Track::instantiate_clip` (return value dropped). -/
def Track.instantiate_clip (t : Track) (clip_id : ClipId) (time : Nat) : Track :=
  ⟨t.clips ++ [ClipInstance.mk time clip_id]⟩

/-- The clip with the latest end sample, `Track::last_clip`.
`Iterator::max_by_key` returns the last of equally-maximal elements, hence the
fold keeps the newer element on ties. -/
def Track.last_clip (t : Track) (db : ClipDatabase) : Option ClipInstance :=
  t.clips.foldl
    (fun acc c =>
      match acc with
      | none => some c
      | some m => if optLe (m.endTime db) (c.endTime db) then some c else some m)
    none

/-- The first clip starting strictly after `time`, `Track::next_clip`.
`Iterator::min_by_key` returns the first of equally-minimal elements, hence the
fold keeps the older element on ties. -/
def Track.next_clip (t : Track) (time : Nat) : Option ClipInstance :=
  t.clips.foldl
    (fun acc c =>
      if time < c.time then
        match acc with
        | none => some c
        | some m => if c.time < m.time then some c else some m
      else acc)
    none

/-- The latest-inserted clip covering `time`, `Track::clip_at` (`rfind`).
The comparison `c.end(database) > Some(t)` on `Option<usize>` is false when the
end is `None`. -/
def Track.clip_at (t : Track) (db : ClipDatabase) (time : Nat) : Option ClipInstance :=
  t.clips.reverse.find?
    (fun c =>
      decide (c.time ≤ time) &&
        match c.endTime db with
        | some e => decide (time < e)
        | none => false)

/-- Track length, `Track::len`: end of the clip with the latest end, or 0. -/
def Track.len (t : Track) (db : ClipDatabase) : Nat :=
  ((t.last_clip db).bind (fun c => c.endTime db)).getD 0

/-- Copy up to `max_copy` samples of `clip` starting at `clip_start` into `buf`
starting at `buf_start`; `copy_clip_data` from `track.rs`. The actual copy
count is bounded by the remaining space in both the buffer and the clip
(`usize` subtraction modelled by truncated `Nat` subtraction, matching the
release-mode path where no out-of-bounds slice is ever formed by the callers). -/
def copy_clip_data (clip : Clip) (buf : List ℚ) (clip_start buf_start max_copy : Nat) :
    List ℚ :=
  let buf_space := buf.length - buf_start
  let clip_space := clip.data.length - clip_start
  let actual_copy := min max_copy (min buf_space clip_space)
  buf.take buf_start ++ (clip.data.drop clip_start).take actual_copy
    ++ buf.drop (buf_start + actual_copy)

/-- The `while let Some(clip_instance) = self.next_clip(time)` loop of
`Track::render`, with explicit fuel. Each iteration moves `time` strictly
upward onto the start of a clip, so starting fuel `clips.length + 1` is never
exhausted; the fuel-zero branch exists only to make the recursion structural. -/
def Track.render_loop (t : Track) (db : ClipDatabase) (start_time end_time : Nat) :
    Nat → Nat → List ℚ → List ℚ
  | 0, _, buf => buf
  | Nat.succ fuel, time, buf =>
    match t.next_clip time with
    | none => buf
    | some ci =>
      match db.get ci.clip_id with
      | none => buf
      | some clip =>
        if end_time < ci.time then buf
        else
          Track.render_loop t db start_time end_time fuel ci.time
            (copy_clip_data clip buf 0 (ci.time - start_time) clip.data.length)

/-- Render the half-open window `[start_time, start_time + |buf|)` of the track,
`Track::render`. The buffer is first zero-filled; if a clip is ongoing at
`start_time` its tail is copied; then clips starting inside the window are
copied in order of increasing start, each overwriting what is under it. -/
def Track.render (t : Track) (db : ClipDatabase) (start_time : Nat) (buf : List ℚ) :
    List ℚ :=
  let b0 := List.replicate buf.length (0 : ℚ)
  if t.len db ≤ start_time then b0
  else
    let end_time := start_time + b0.length
    let b1 :=
      match t.clip_at db start_time with
      | some ci =>
        match db.get ci.clip_id with
        | some clip => copy_clip_data clip b0 (start_time - ci.time) 0 clip.data.length
        | none => b0
      | none => b0
    Track.render_loop t db start_time end_time (t.clips.length + 1) start_time b1

/-- Sum-and-clamp mixdown of several source buffers, `mix` from `lib.rs`:
`buf[i] = (sum of source[i] over sources long enough).max(-1.0).min(1.0)`. -/
def mix (sources : List (List ℚ)) (buf : List ℚ) : List ℚ :=
  (List.range buf.length).map (fun i =>
    let s := sources.foldl
      (fun acc source => if source.length ≤ i then acc else acc + source.getD i 0) 0
    min 1 (max (-1) s))

/-- A composition of a fixed number of tracks, `Timeline` from `timeline.rs`. -/
structure Timeline where
  tracks : List Track
deriving DecidableEq

/-- The constructor `Timeline::new`: four empty tracks. -/
def Timeline.new : Timeline := ⟨List.replicate 4 Track.new⟩

/-- The body of `Timeline::len`: `tracks.iter().map(len).max()`, with `none`
modelling the panic of the `.unwrap()` when the tracks vector is empty. -/
def Timeline.len_checked (tl : Timeline) (db : ClipDatabase) : Option Nat :=
  match tl.tracks.map (fun t => t.len db) with
  | [] => none
  | x :: xs => some (xs.foldl max x)

/-- Note events consumed by generators; the subset of `midly::MidiMessage`
the sine generator inspects, with `other` standing for every ignored variant. -/
inductive MidiMessage where
  | noteOn (key velocity : Nat)
  | noteOff (key velocity : Nat)
  | other
deriving DecidableEq

/-- State of `SineGenerator` from `generator/sine.rs`; the `f32` phase is
modelled as a real number. -/
structure SineGenerator where
  sample_rate : Nat
  phase : ℝ
  note : Nat
  gate : Bool  -- the source field `on`; renamed because `on` is reserved

/-- Frequency of a MIDI note, `midi_note_to_hz`. -/
noncomputable def midi_note_to_hz (note : Nat) : ℝ :=
  440 * (2 : ℝ) ^ (((note : ℝ) - 69) / 12)

/-- The constructor `SineGenerator::new`. -/
def SineGenerator.new (sample_rate : Nat) : SineGenerator :=
  { sample_rate := sample_rate, phase := 0, note := 69, gate := false }

/-- One pulled sample, `SineGenerator::next`: silent and inert while the gate
is off; otherwise the phase advances by `2π·f/Fs`, wraps once into `[0, 2π]`,
and the sine of the new phase is returned. -/
noncomputable def SineGenerator.next (g : SineGenerator) : ℝ × SineGenerator :=
  if g.gate = false then (0, g)
  else
    let freq := midi_note_to_hz g.note / (g.sample_rate : ℝ)
    let p1 := g.phase + 2 * Real.pi * freq
    let p2 := if 2 * Real.pi < p1 then p1 - 2 * Real.pi else p1
    let p3 := if p2 < 0 then p2 + 2 * Real.pi else p2
    (Real.sin p3, { g with phase := p3 })

/-- Event handling, `SineGenerator::handle`: note-on retunes and opens the
gate; note-off closes it only when the released key is the remembered one. -/
def SineGenerator.handle (g : SineGenerator) (msg : MidiMessage) : SineGenerator :=
  match msg with
  | MidiMessage.noteOn key _ => { g with note := key, gate := true }
  | MidiMessage.noteOff key _ => if g.note = key then { g with gate := false } else g
  | MidiMessage.other => g

/-- Folding a message sequence through `SineGenerator::handle`. -/
def SineGenerator.handleAll (g : SineGenerator) (msgs : List MidiMessage) : SineGenerator :=
  msgs.foldl SineGenerator.handle g

/-- Modelled from the spec: the `Track` of the player/project iteration used by
`player.rs` and `project.rs` stores placements with embedded clip data; that
type (and its `add_clip`) is not under `src/`, only its callers are. A track is
the list of `(time, clip)` placements in insertion order. -/
abbrev PTrack := List (Nat × Clip)

/-- Modelled from the spec: `Track::add_clip(time, clip)` as called by
`Player::write_recorded_clip` and `Project::add_clip`; per spec §4.6 a
placement is appended to the track. -/
def PTrack.add_clip (t : PTrack) (time : Nat) (clip : Clip) : PTrack :=
  t ++ [(time, clip)]

/-- Mutable state of `Player` from `player.rs` (the stream-configuration
fields and the render buffer contents are irrelevant to the claims). -/
structure PlayerState where
  time : Nat
  playing_project : Bool
  recording : Bool
  record_track : Nat
  record_start : Nat
  record_buf : List ℚ
deriving DecidableEq

/-- Transition of `Player::set_recording(recording, record_track)` acting on
the player state and the timeline's tracks: equal flag is an early return;
arming captures the playhead and clears the record buffer; disarming with a
non-empty buffer takes the buffer and appends it as a clip on the armed track. -/
def Player.set_recording (s : PlayerState) (tracks : List PTrack) (recording : Bool)
    (record_track : Nat) : PlayerState × List PTrack :=
  if s.recording = recording then (s, tracks)
  else if recording then
    ({ s with
        recording := true
        record_start := s.time
        record_track := record_track
        record_buf := [] }, tracks)
  else if s.record_buf.isEmpty then
    ({ s with recording := false }, tracks)
  else
    ({ s with recording := false, record_buf := [] },
      tracks.set s.record_track
        ((tracks.getD s.record_track []).add_clip s.record_start (Clip.mk s.record_buf)))

/-- Number of source-rate samples per block in `Player::write_next_block`:
`(dst_samples as f64 * (src_rate as f64 / dst_rate as f64)) as usize`. The
`f64` arithmetic is modelled as exact rational arithmetic; the `as usize`
cast truncates toward zero, which on these non-negative values is the `Nat`
floor division. -/
def sourceSamples (dst_samples src_rate dst_rate : Nat) : Nat :=
  dst_samples * src_rate / dst_rate

/-- The state effect of `Player::write_next_block` on the playhead and record
buffer, for a block of `dst_samples` host frames against a timeline of length
`timeline_len`; `gen` is the stream of generator samples pulled this block. -/
def Player.write_next_block (s : PlayerState) (timeline_len dst_samples src_rate
    dst_rate : Nat) (gen : List ℚ) : PlayerState :=
  let src_samples := sourceSamples dst_samples src_rate dst_rate
  let time1 := if s.playing_project then s.time + src_samples else s.time
  let time2 :=
    if s.playing_project ∧ timeline_len < time1 ∧ s.recording = false then 0 else time1
  let rbuf :=
    if s.playing_project ∧ s.recording then s.record_buf ++ gen.take src_samples
    else s.record_buf
  { s with time := time2, record_buf := rbuf }

/-- Truncation toward zero of a rational, the behaviour of Rust's float-to-int
`as` cast on in-range values. -/
def ratTrunc (x : ℚ) : Int := if 0 ≤ x then Int.floor x else Int.ceil x

/-- The per-sample quantization of `Project::export` in `project.rs`:
`(sample * i16::MAX as f32) as i16`, a saturating truncation toward zero. -/
def quantize_sample (s : ℚ) : Int :=
  max (-32768) (min 32767 (ratTrunc (s * 32767)))

/-- The sample loop of `Project::export`: quantize every rendered sample. -/
def export_samples (rendered : List ℚ) : List Int :=
  rendered.map quantize_sample

/-- Rounding half away from zero, `f64::round`/`f32::round` in Rust and the
plain "round" of the specification text. -/
def roundHalfAwayFromZero (x : ℚ) : Int :=
  if 0 ≤ x then Int.floor (x + 1 / 2) else Int.ceil (x - 1 / 2)

/-- The quantizer as the specification words it: `round(clamp(s, -1, 1) * 32767)`.
Stated only to be compared against `quantize_sample` from the source. -/
def quantize_sample_claimed (s : ℚ) : Int :=
  roundHalfAwayFromZero (min 1 (max (-1) s) * 32767)

/-- The block size as the specification words it: `round(N * Rs / Rd)`.
Stated only to be compared against `sourceSamples` from the source. -/
def sourceSamplesClaimed (dst_samples src_rate dst_rate : Nat) : Int :=
  roundHalfAwayFromZero ((dst_samples * src_rate : ℚ) / dst_rate)

/-- The error type of `project.rs` (`ProjectError`); the `io::Error` payload
is irrelevant to the claims. -/
inductive ProjectError where
  | ioError
  | loadProjectError (message : String) (line column : Nat)
  | saveProjectError (message : String)
deriving DecidableEq

/-- The persistent `Project` of `project.rs`: sample rate and tracks. -/
structure PProject where
  sample_rate : Nat
  tracks : List PTrack
deriving DecidableEq

/-- `Project::load`: the file contents (`none` when `project.json` cannot be
read) are parsed by `parse`, standing for `serde_json::from_str`; a read
failure surfaces as `IoError` via `?`, a parse failure as `LoadProjectError`. -/
def Project.load (file : Option String)
    (parse : String → Except (String × Nat × Nat) PProject) :
    Except ProjectError PProject :=
  match file with
  | none => Except.error ProjectError.ioError
  | some s =>
    match parse s with
    | Except.error e => Except.error (ProjectError.loadProjectError e.1 e.2.1 e.2.2)
    | Except.ok p => Except.ok p

/-- `Project::load_overwrite`: `let new = Self::load(path)?; *self = new;`.
Returns the propagated result and the resulting project value. -/
def Project.load_overwrite (p : PProject) (file : Option String)
    (parse : String → Except (String × Nat × Nat) PProject) :
    Except ProjectError Unit × PProject :=
  match Project.load file parse with
  | Except.error e => (Except.error e, p)
  | Except.ok np => (Except.ok (), np)

/-! Basic lemmas about `copy_clip_data` and the render loop. -/

theorem copy_clip_data_length (clip : Clip) (buf : List ℚ)
    (clip_start buf_start max_copy : Nat) :
    (copy_clip_data clip buf clip_start buf_start max_copy).length = buf.length := by
  simp only [copy_clip_data, List.length_append, List.length_take, List.length_drop]
  omega

theorem copy_clip_data_getElem_in (clip : Clip) (buf : List ℚ)
    (clip_start buf_start max_copy i : Nat)
    (hbs : buf_start ≤ i)
    (hmc : i - buf_start < max_copy)
    (hbuf : i < buf.length)
    (hclip : clip_start + (i - buf_start) < clip.data.length) :
    (copy_clip_data clip buf clip_start buf_start max_copy)[i]? =
      clip.data[clip_start + (i - buf_start)]? := by
  have hlen1 : (buf.take buf_start).length = buf_start := by
    simp only [List.length_take]; omega
  have hmid : ((clip.data.drop clip_start).take
      (min max_copy (min (buf.length - buf_start) (clip.data.length - clip_start)))).length
      = min max_copy (min (buf.length - buf_start) (clip.data.length - clip_start)) := by
    simp only [List.length_take, List.length_drop]; omega
  simp only [copy_clip_data]
  rw [List.getElem?_append_left (by simp only [List.length_append, hlen1, hmid]; omega)]
  rw [List.getElem?_append_right (by rw [hlen1]; exact hbs), hlen1]
  rw [List.getElem?_take_of_lt (by omega), List.getElem?_drop]

theorem mem_copy_clip_data (clip : Clip) (buf : List ℚ)
    (clip_start buf_start max_copy : Nat) (x : ℚ)
    (hx : x ∈ copy_clip_data clip buf clip_start buf_start max_copy) :
    x ∈ buf ∨ x ∈ clip.data := by
  simp only [copy_clip_data, List.mem_append] at hx
  rcases hx with (h | h) | h
  · exact Or.inl (List.take_subset _ _ h)
  · exact Or.inr (List.drop_subset _ _ (List.take_subset _ _ h))
  · exact Or.inl (List.drop_subset _ _ h)

theorem render_loop_fuel_zero (t : Track) (db : ClipDatabase)
    (start_time end_time time : Nat) (buf : List ℚ) :
    Track.render_loop t db start_time end_time 0 time buf = buf := rfl

theorem render_loop_none (t : Track) (db : ClipDatabase)
    (start_time end_time fuel time : Nat) (buf : List ℚ)
    (h : t.next_clip time = none) :
    Track.render_loop t db start_time end_time (fuel + 1) time buf = buf := by
  simp only [Track.render_loop, h]

theorem render_loop_missing (t : Track) (db : ClipDatabase)
    (start_time end_time fuel time : Nat) (buf : List ℚ) (ci : ClipInstance)
    (h : t.next_clip time = some ci) (hg : db.get ci.clip_id = none) :
    Track.render_loop t db start_time end_time (fuel + 1) time buf = buf := by
  simp only [Track.render_loop, h, hg]

theorem render_loop_past_end (t : Track) (db : ClipDatabase)
    (start_time end_time fuel time : Nat) (buf : List ℚ) (ci : ClipInstance) (clip : Clip)
    (h : t.next_clip time = some ci) (hg : db.get ci.clip_id = some clip)
    (hpast : end_time < ci.time) :
    Track.render_loop t db start_time end_time (fuel + 1) time buf = buf := by
  simp only [Track.render_loop, h, hg, if_pos hpast]

theorem render_loop_step (t : Track) (db : ClipDatabase)
    (start_time end_time fuel time : Nat) (buf : List ℚ) (ci : ClipInstance) (clip : Clip)
    (h : t.next_clip time = some ci) (hg : db.get ci.clip_id = some clip)
    (hin : ¬ end_time < ci.time) :
    Track.render_loop t db start_time end_time (fuel + 1) time buf =
      Track.render_loop t db start_time end_time fuel ci.time
        (copy_clip_data clip buf 0 (ci.time - start_time) clip.data.length) := by
  simp only [Track.render_loop, h, hg, if_neg hin]

theorem render_loop_length (t : Track) (db : ClipDatabase) (start_time end_time : Nat) :
    ∀ (fuel time : Nat) (buf : List ℚ),
      (Track.render_loop t db start_time end_time fuel time buf).length = buf.length := by
  intro fuel
  induction fuel with
  | zero => intro time buf; rfl
  | succ n ih =>
    intro time buf
    cases hnc : t.next_clip time with
    | none => rw [render_loop_none t db _ _ _ _ _ hnc]
    | some ci =>
      cases hg : db.get ci.clip_id with
      | none => rw [render_loop_missing t db _ _ _ _ _ _ hnc hg]
      | some clip =>
        by_cases h : end_time < ci.time
        · rw [render_loop_past_end t db _ _ _ _ _ _ _ hnc hg h]
        · rw [render_loop_step t db _ _ _ _ _ _ _ hnc hg h, ih, copy_clip_data_length]

theorem render_length (t : Track) (db : ClipDatabase) (start_time : Nat) (buf : List ℚ) :
    (Track.render t db start_time buf).length = buf.length := by
  simp only [Track.render]
  split
  · simp only [List.length_replicate]
  · split
    · split
      · simp only [render_loop_length, copy_clip_data_length, List.length_replicate]
      · simp only [render_loop_length, List.length_replicate]
    · simp only [render_loop_length, List.length_replicate]

theorem render_loop_mem (t : Track) (db : ClipDatabase) (start_time end_time : Nat)
    (P : ℚ → Prop)
    (hdb : ∀ (id : ClipId) (c : Clip), db.get id = some c → ∀ x ∈ c.data, P x) :
    ∀ (fuel time : Nat) (buf : List ℚ), (∀ x ∈ buf, P x) →
      ∀ x ∈ Track.render_loop t db start_time end_time fuel time buf, P x := by
  intro fuel
  induction fuel with
  | zero => intro time buf hbuf; exact hbuf
  | succ n ih =>
    intro time buf hbuf
    cases hnc : t.next_clip time with
    | none => rw [render_loop_none t db _ _ _ _ _ hnc]; exact hbuf
    | some ci =>
      cases hg : db.get ci.clip_id with
      | none => rw [render_loop_missing t db _ _ _ _ _ _ hnc hg]; exact hbuf
      | some clip =>
        by_cases h : end_time < ci.time
        · rw [render_loop_past_end t db _ _ _ _ _ _ _ hnc hg h]; exact hbuf
        · rw [render_loop_step t db _ _ _ _ _ _ _ hnc hg h]
          refine ih _ _ (fun x hx => ?_)
          rcases mem_copy_clip_data _ _ _ _ _ _ hx with h' | h'
          · exact hbuf x h'
          · exact hdb _ _ hg x h'

/-! Characterization of the track queries on two-element tracks, used to settle
the overlap-policy claims. -/

theorem next_clip_pair (u v : ClipInstance) (t : Nat) :
    Track.next_clip ⟨[u, v]⟩ t =
      if t < u.time then
        if t < v.time ∧ v.time < u.time then some v else some u
      else if t < v.time then some v else none := by
  simp only [Track.next_clip, List.foldl]
  by_cases h1 : t < u.time <;> by_cases h2 : t < v.time <;>
    by_cases h3 : v.time < u.time <;>
      simp [h1, h2, h3]

theorem endTime_eq (u : ClipInstance) (db : ClipDatabase) (cu : Clip)
    (hu : db.get u.clip_id = some cu) :
    u.endTime db = some (u.time + cu.data.length) := by
  simp [ClipInstance.endTime, ClipInstance.len, hu]

theorem len_pair (u v : ClipInstance) (db : ClipDatabase) (cu cv : Clip)
    (hu : db.get u.clip_id = some cu) (hv : db.get v.clip_id = some cv) :
    Track.len ⟨[u, v]⟩ db = u.time + cu.data.length ∨
      Track.len ⟨[u, v]⟩ db = v.time + cv.data.length := by
  simp only [Track.len, Track.last_clip, List.foldl,
    endTime_eq u db cu hu, endTime_eq v db cv hv, optLe]
  split <;> simp [endTime_eq u db cu hu, endTime_eq v db cv hv]

theorem clip_at_pair_none (u v : ClipInstance) (db : ClipDatabase) (t : Nat)
    (hu : ¬ u.time ≤ t) (hv : ¬ v.time ≤ t) :
    Track.clip_at ⟨[u, v]⟩ db t = none := by
  simp only [Track.clip_at]
  rw [show ([u, v] : List ClipInstance).reverse = [v, u] from rfl]
  rw [List.find?_cons_of_neg _ (by simp [hv]), List.find?_cons_of_neg _ (by simp [hu])]
  rfl

theorem clip_at_pair_first (u v : ClipInstance) (db : ClipDatabase) (t : Nat)
    (cu : Clip) (hu : db.get u.clip_id = some cu)
    (h1 : u.time ≤ t) (h2 : t < u.time + cu.data.length) (hv : ¬ v.time ≤ t) :
    Track.clip_at ⟨[u, v]⟩ db t = some u := by
  simp only [Track.clip_at]
  rw [show ([u, v] : List ClipInstance).reverse = [v, u] from rfl]
  rw [List.find?_cons_of_neg _ (by simp [hv]),
    List.find?_cons_of_pos _ (by simp [endTime_eq u db cu hu, h1, h2])]

theorem clip_at_pair_second (u v : ClipInstance) (db : ClipDatabase) (t : Nat)
    (cv : Clip) (hv : db.get v.clip_id = some cv)
    (h1 : v.time ≤ t) (h2 : t < v.time + cv.data.length) :
    Track.clip_at ⟨[u, v]⟩ db t = some v := by
  simp only [Track.clip_at]
  rw [show ([u, v] : List ClipInstance).reverse = [v, u] from rfl]
  rw [List.find?_cons_of_pos _ (by simp [endTime_eq v db cv hv, h1, h2])]

/-- Core computation behind the corrected overlap policy: on a track with
exactly two resolvable instances `a` and `b` with `a.time < b.time`, rendering
a window that opens before `b.time` writes `b`'s data at every sample of the
overlap region inside the window. Stated against an abstract track through the
facts that both insertion orders share. -/
theorem render_two_clip_dominance (tr : Track) (a b : ClipInstance) (ca cb : Clip)
    (db : ClipDatabase) (st i : Nat) (buf : List ℚ)
    (ha : db.get a.clip_id = some ca) (hb : db.get b.clip_id = some cb)
    (hab : a.time < b.time)
    (hclips : tr.clips.length = 2)
    (hlen : st < tr.len db)
    (hca_none : st < a.time → tr.clip_at db st = none)
    (hca_some : a.time ≤ st → tr.clip_at db st = some a)
    (hnc_a : st < a.time → tr.next_clip st = some a)
    (hnc_b : ∀ u, a.time ≤ u → u < b.time → tr.next_clip u = some b)
    (hnc_none : ∀ u, b.time ≤ u → tr.next_clip u = none)
    (hst : st < b.time)
    (hi0 : b.time ≤ st + i) (hi1 : st + i < b.time + cb.data.length)
    (hi2 : st + i < a.time + ca.data.length) (hibuf : i < buf.length) :
    (Track.render tr db st buf)[i]? = cb.data[st + i - b.time]? := by
  simp only [Track.render, if_neg (show ¬ tr.len db ≤ st by omega), hclips,
    List.length_replicate]
  have hinb : ¬ st + buf.length < b.time := by omega
  have hina : ¬ st + buf.length < a.time := by omega
  by_cases hcase : a.time ≤ st
  · simp only [hca_some hcase, ha]
    rw [render_loop_step tr db st (st + buf.length) 2 st _ b cb
      (hnc_b st hcase hst) hb hinb]
    rw [render_loop_none tr db st (st + buf.length) 1 b.time _ (hnc_none b.time le_rfl)]
    have hlen1 : (copy_clip_data ca (List.replicate buf.length 0) (st - a.time) 0
        ca.data.length).length = buf.length := by
      rw [copy_clip_data_length, List.length_replicate]
    rw [copy_clip_data_getElem_in cb _ 0 (b.time - st) cb.data.length i
      (by omega) (by omega) (by rw [hlen1]; exact hibuf) (by omega)]
    congr 1
    omega
  · simp only [hca_none (by omega : st < a.time)]
    rw [render_loop_step tr db st (st + buf.length) 2 st _ a ca
      (hnc_a (by omega)) ha hina]
    rw [render_loop_step tr db st (st + buf.length) 1 a.time _ b cb
      (hnc_b a.time le_rfl hab) hb hinb]
    rw [render_loop_none tr db st (st + buf.length) 0 b.time _ (hnc_none b.time le_rfl)]
    have hlen1 : (copy_clip_data ca (List.replicate buf.length 0) 0 (a.time - st)
        ca.data.length).length = buf.length := by
      rw [copy_clip_data_length, List.length_replicate]
    rw [copy_clip_data_getElem_in cb _ 0 (b.time - st) cb.data.length i
      (by omega) (by omega)
      (by rw [copy_clip_data_length, List.length_replicate]; exact hibuf)
      (by omega)]
    congr 1
    omega

/-- C1 (amended): on a track holding exactly two overlapping clip instances
with distinct start times, dominance in the overlap region is decided by start
time, not by insertion order: for every window opening strictly before the
later start, every sample of the overlap region inside the window receives the
later-starting instance's data, by copy rather than addition. (The claim as
frozen — dominance of the later-_inserted_ instance, for every start time,
including equal starts — is refuted by `C1_counterexample`.) -/
theorem C1_later_start_dominates
    (a b : ClipInstance) (ca cb : Clip) (db : ClipDatabase)
    (tr : Track) (st i : Nat) (buf : List ℚ)
    (horder : tr = Track.mk [a, b] ∨ tr = Track.mk [b, a])
    (ha : db.get a.clip_id = some ca) (hb : db.get b.clip_id = some cb)
    (hab : a.time < b.time) (hst : st < b.time)
    (hi0 : b.time ≤ st + i) (hi1 : st + i < b.time + cb.data.length)
    (hi2 : st + i < a.time + ca.data.length) (hibuf : i < buf.length) :
    (Track.render tr db st buf)[i]? = cb.data[st + i - b.time]? := by
  rcases horder with rfl | rfl
  · refine render_two_clip_dominance _ a b ca cb db st i buf ha hb hab rfl ?_ ?_ ?_ ?_ ?_ ?_
      hst hi0 hi1 hi2 hibuf
    · rcases len_pair a b db ca cb ha hb with h | h <;> omega
    · intro h
      exact clip_at_pair_none a b db st (by omega) (by omega)
    · intro h
      exact clip_at_pair_first a b db st ca ha h (by omega) (by omega)
    · intro h
      rw [next_clip_pair, if_pos h, if_neg (by omega)]
    · intro u hu1 hu2
      rw [next_clip_pair, if_neg (by omega), if_pos hu2]
    · intro u hu
      rw [next_clip_pair, if_neg (by omega), if_neg (by omega)]
  · refine render_two_clip_dominance _ a b ca cb db st i buf ha hb hab rfl ?_ ?_ ?_ ?_ ?_ ?_
      hst hi0 hi1 hi2 hibuf
    · rcases len_pair b a db cb ca hb ha with h | h <;> omega
    · intro h
      exact clip_at_pair_none b a db st (by omega) (by omega)
    · intro h
      exact clip_at_pair_second b a db st ca ha h (by omega)
    · intro h
      rw [next_clip_pair, if_pos hst, if_pos (by omega)]
    · intro u hu1 hu2
      rw [next_clip_pair, if_pos hu2, if_neg (by omega)]
    · intro u hu
      rw [next_clip_pair, if_neg (by omega), if_neg (by omega)]

/-! Test vectors: the rendering embedding reproduces the expectations of the
repository's own unit tests in `track.rs`. -/

-- sanity checks against the repository's own tests in track.rs
example :
    Track.render ⟨[⟨0, 0⟩, ⟨2, 1⟩]⟩ ⟨[(0, ⟨[1]⟩), (1, ⟨[2]⟩)]⟩ 0
      (List.replicate 3 0) = [1, 0, 2] := by decide

example :
    Track.render ⟨[⟨0, 0⟩, ⟨2, 1⟩]⟩ ⟨[(0, ⟨[1, 1, 1, 1]⟩), (1, ⟨[2, 2, 2, 2]⟩)]⟩ 0
      (List.replicate 6 0) = [1, 1, 2, 2, 2, 2] := by decide

example :
    Track.render ⟨[⟨0, 0⟩, ⟨2, 1⟩]⟩ ⟨[(0, ⟨[1, 1, 1, 1, 1, 1]⟩), (1, ⟨[2, 2]⟩)]⟩ 0
      (List.replicate 6 0) = [1, 1, 2, 2, 1, 1] := by decide

example :
    Track.render ⟨[⟨2, 0⟩]⟩ ⟨[(0, ⟨[1, 1]⟩)]⟩ 0
      (List.replicate 6 0) = [0, 0, 1, 1, 0, 0] := by decide

example :
    Track.render ⟨[⟨2, 0⟩]⟩ ⟨[(0, ⟨[1, 1]⟩)]⟩ 100
      (List.replicate 4 0) = [0, 0, 0, 0] := by decide

/-! Claim verdicts. -/

/-- C1 (counterexample): with two instances at the same start time 1 — data
`[1]` inserted first, data `[2]` inserted second — rendering from time 0 puts
the EARLIER-inserted instance's sample at the overlapping position, because
`next_clip`'s `min_by_key` keeps the first of equally-early starts; the
later-placed instance does not dominate. -/
theorem C1_counterexample :
    Track.render ⟨[⟨1, 0⟩, ⟨1, 1⟩]⟩ ⟨[(0, ⟨[1]⟩), (1, ⟨[2]⟩)]⟩ 0
        (List.replicate 2 0) = [0, 1] ∧
      ([0, 1] : List ℚ) ≠ [0, 2] := by
  constructor
  · decide
  · decide

/-- C1 (witness): concrete instantiation of the amended overlap theorem, with
the later-starting instance inserted FIRST — start order, not insertion order,
decides the overlap. -/
theorem C1_witness :
    (Track.render (Track.mk [ClipInstance.mk 2 1, ClipInstance.mk 0 0])
        (ClipDatabase.mk [(0, Clip.mk [1, 1, 1, 1, 1]), (1, Clip.mk [9, 9])]) 0
        (List.replicate 5 0))[2]? = (Clip.mk [(9 : ℚ), 9]).data[0 + 2 - 2]? :=
  C1_later_start_dominates (ClipInstance.mk 0 0) (ClipInstance.mk 2 1)
    (Clip.mk [1, 1, 1, 1, 1]) (Clip.mk [9, 9])
    (ClipDatabase.mk [(0, Clip.mk [1, 1, 1, 1, 1]), (1, Clip.mk [9, 9])])
    (Track.mk [ClipInstance.mk 2 1, ClipInstance.mk 0 0]) 0 2 (List.replicate 5 0)
    (Or.inr rfl) (by decide) (by decide) (by decide) (by decide) (by decide)
    (by decide) (by decide) (by decide)

/-- C2 (counterexample): for `{t=0, [1,1,1,1,1]}` then `{t=2, [2]}` over five
samples, `Track::render` yields `[1,1,2,1,1]`, not the `[1,1,2,0,0]` of the
claim: the ongoing clip was copied in full before the short later clip
overwrote one sample, so its tail persists after the later clip ends. -/
theorem C2_counterexample :
    Track.render ⟨[⟨0, 0⟩, ⟨2, 1⟩]⟩ ⟨[(0, ⟨[1, 1, 1, 1, 1]⟩), (1, ⟨[2]⟩)]⟩ 0
        (List.replicate 5 0) ≠ [1, 1, 2, 0, 0] := by
  decide

/-- C2 (amended): the same input renders to `[1,1,2,1,1]`: the later short
clip overwrites from its start for its own length, after which the earlier
clip's remaining samples stay in the buffer — matching the repository's own
`test_render` expectations rather than truncation into silence. -/
theorem C2_short_overlap_resumes :
    Track.render ⟨[⟨0, 0⟩, ⟨2, 1⟩]⟩ ⟨[(0, ⟨[1, 1, 1, 1, 1]⟩), (1, ⟨[2]⟩)]⟩ 0
        (List.replicate 5 0) = [1, 1, 2, 1, 1] := by
  decide

/-- C3 (counterexample): at 128 host frames, project rate 44100 and host rate
48000 the code renders `(128 * 44100 / 48000 = 117.6) as usize = 117` source
samples and advances the playhead by 117, while the claimed
`round(N * Rs / Rd)` is 118. -/
theorem C3_counterexample :
    (Player.write_next_block (PlayerState.mk 0 true false 0 0 []) 1000000 128 44100
        48000 []).time = 117
    ∧ sourceSamplesClaimed 128 44100 48000 = 118
    ∧ (117 : Nat) ≠ 118 := by
  refine ⟨by decide, ?_, by decide⟩
  rw [sourceSamplesClaimed, roundHalfAwayFromZero, if_pos (by positivity)]
  norm_num

/-- C3 (amended): the per-block source sample count is the TRUNCATION
`⌊N * Rs / Rd⌋` (the `as usize` cast), not the rounding of the claim; with
that count `sourceN`, a playing player advances the playhead by exactly
`sourceN`, wraps it to 0 exactly when it then exceeds the timeline length and
recording is off, and a paused player leaves the playhead unchanged. -/
theorem C3_playhead_advance (s : PlayerState) (tl dst rs rd : Nat) (gen : List ℚ) :
    sourceSamples dst rs rd = ⌊(((dst * rs : Nat) : ℚ)) / ((rd : Nat) : ℚ)⌋₊
    ∧ (s.playing_project = true → s.time + sourceSamples dst rs rd ≤ tl →
        (Player.write_next_block s tl dst rs rd gen).time
          = s.time + sourceSamples dst rs rd)
    ∧ (s.playing_project = true → s.recording = true →
        (Player.write_next_block s tl dst rs rd gen).time
          = s.time + sourceSamples dst rs rd)
    ∧ (s.playing_project = true → s.recording = false →
        tl < s.time + sourceSamples dst rs rd →
        (Player.write_next_block s tl dst rs rd gen).time = 0)
    ∧ (s.playing_project = false →
        (Player.write_next_block s tl dst rs rd gen).time = s.time) := by
  refine ⟨(Nat.floor_div_eq_div (dst * rs) rd).symm, ?_, ?_, ?_, ?_⟩
  · intro hp hle
    simp [Player.write_next_block, hp]
    intro h1 _
    omega
  · intro hp hr
    simp [Player.write_next_block, hp, hr]
  · intro hp hr hlt
    simp [Player.write_next_block, hp, hr, hlt]
  · intro hp
    simp [Player.write_next_block, hp]

/-- C3 (witness): a playing, non-recording player at playhead 5 with 10 host
frames at rates 2/1 advances by `sourceSamples 10 2 1 = 20`. -/
theorem C3_witness :
    (Player.write_next_block (PlayerState.mk 5 true false 0 0 []) 1000 10 2 1 []).time
      = 5 + sourceSamples 10 2 1 :=
  (C3_playhead_advance (PlayerState.mk 5 true false 0 0 []) 1000 10 2 1 []).2.1 rfl
    (by decide)

/-- C4: stopping a recording with a non-empty record buffer appends exactly one
placement — at the playhead captured when recording was armed, carrying the
whole buffer as one clip — to the armed track, leaves every other track
unchanged and empties the buffer; toggling `set_recording` to the current
state is a strict no-op; arming captures the current playhead and the armed
track and clears the buffer; and `write_next_block` never disturbs the
captured start or armed track. -/
theorem C4_set_recording_spec (s : PlayerState) (tracks : List PTrack) (k : Nat) :
    (s.recording = true → s.record_buf ≠ [] → s.record_track < tracks.length →
      (Player.set_recording s tracks false k).2.getD s.record_track [] =
          (tracks.getD s.record_track []) ++ [(s.record_start, Clip.mk s.record_buf)]
        ∧ (∀ j, j ≠ s.record_track →
            (Player.set_recording s tracks false k).2.getD j [] = tracks.getD j [])
        ∧ (Player.set_recording s tracks false k).1.record_buf = []
        ∧ (Clip.mk s.record_buf).data.length = s.record_buf.length)
    ∧ Player.set_recording s tracks s.recording k = (s, tracks)
    ∧ (s.recording = false →
        (Player.set_recording s tracks true k).1.record_start = s.time
        ∧ (Player.set_recording s tracks true k).1.record_track = k
        ∧ (Player.set_recording s tracks true k).1.record_buf = []
        ∧ (Player.set_recording s tracks true k).2 = tracks)
    ∧ (∀ tl dst rs rd gen,
        (Player.write_next_block s tl dst rs rd gen).record_start = s.record_start
        ∧ (Player.write_next_block s tl dst rs rd gen).record_track
          = s.record_track) := by
  refine ⟨?_, ?_, ?_, ?_⟩
  · intro hr hne hlt
    have heq : Player.set_recording s tracks false k =
        ({ s with recording := false, record_buf := [] },
          tracks.set s.record_track
            ((tracks.getD s.record_track [])
              ++ [(s.record_start, Clip.mk s.record_buf)])) := by
      unfold Player.set_recording
      rw [if_neg (by simp [hr]), if_neg (by simp),
        if_neg (by simpa [List.isEmpty_iff] using hne), PTrack.add_clip]
    rw [heq]
    refine ⟨?_, ?_, rfl, rfl⟩
    · simp [List.getD_eq_getElem?_getD, List.getElem?_set_self hlt]
    · intro j hj
      simp [List.getD_eq_getElem?_getD, List.getElem?_set_ne (Ne.symm hj)]
  · simp [Player.set_recording]
  · intro hr
    simp [Player.set_recording, hr]
  · intro tl dst rs rd gen
    constructor
    · rfl
    · rfl

/-- C4 (witness): a player recording into buffer `[5]` armed on track 0 at
capture time 3; stopping places exactly `(3, Clip [5])` on track 0. -/
theorem C4_witness :
    (Player.set_recording (PlayerState.mk 7 false true 0 3 [5]) [[]] false 9).2.getD 0 []
        = ([] : PTrack) ++ [(3, Clip.mk [5])]
      ∧ (∀ j, j ≠ 0 →
          (Player.set_recording (PlayerState.mk 7 false true 0 3 [5]) [[]] false 9).2.getD
            j [] = ([([] : PTrack)]).getD j [])
      ∧ (Player.set_recording (PlayerState.mk 7 false true 0 3 [5]) [[]] false 9).1.record_buf
        = []
      ∧ (Clip.mk [(5 : ℚ)]).data.length = [(5 : ℚ)].length :=
  (C4_set_recording_spec (PlayerState.mk 7 false true 0 3 [5]) [[]] 9).1 rfl
    (by decide) (by decide)

/-- C5 (counterexample): the rendered sample `1/2` — producible by the mix —
is written by `Project::export` as `(0.5 * 32767) as i16 = 16383`, while the
claimed `round(clamp(s,-1,1) * 32767)` is 16384: the cast truncates instead of
rounding. -/
theorem C5_counterexample :
    mix [[(1 : ℚ) / 2]] [0] = [1 / 2]
    ∧ export_samples [(1 : ℚ) / 2] = [16383]
    ∧ quantize_sample_claimed ((1 : ℚ) / 2) = 16384
    ∧ (16383 : ℤ) ≠ 16384 := by
  have hq : quantize_sample ((1 : ℚ) / 2) = 16383 := by
    rw [quantize_sample, ratTrunc, if_pos (by norm_num)]
    norm_num
  refine ⟨?_, ?_, ?_, by decide⟩
  · rw [mix]
    norm_num [List.range_succ]
  · rw [export_samples, List.map_cons, List.map_nil, hq]
  · rw [quantize_sample_claimed, roundHalfAwayFromZero, if_pos (by norm_num)]
    norm_num

/-- C5 (amended): for every rendered sample `s` — and the mix guarantees every
rendered sample lies in `[-1, 1]` — `Project::export` writes the saturating
TRUNCATION `(s * 32767) as i16`, which on in-range samples is plain truncation
toward zero and stays within `[-32767, 32767]`; the spot values of the claim
hold: 1.0 exports as 32767, -1.0 as -32767 and 0.0 as 0. -/
theorem C5_export_quantization (s : ℚ) (h1 : -1 ≤ s) (h2 : s ≤ 1) :
    quantize_sample s = ratTrunc (s * 32767)
    ∧ -32767 ≤ quantize_sample s ∧ quantize_sample s ≤ 32767
    ∧ quantize_sample 1 = 32767 ∧ quantize_sample (-1) = -32767
    ∧ quantize_sample 0 = 0
    ∧ (∀ sources buf, ∀ x ∈ mix sources buf, -1 ≤ x ∧ x ≤ 1) := by
  have hb : -32767 ≤ ratTrunc (s * 32767) ∧ ratTrunc (s * 32767) ≤ 32767 := by
    unfold ratTrunc
    split
    · constructor
      · have h0 : (0 : ℤ) ≤ ⌊s * 32767⌋ := Int.floor_nonneg.mpr (by assumption)
        omega
      · have hf : ⌊s * 32767⌋ ≤ ⌊(32767 : ℚ)⌋ := Int.floor_le_floor (by nlinarith)
        have h37 : ⌊(32767 : ℚ)⌋ = 32767 := by norm_num
        omega
    · constructor
      · have hc : ⌈(-32767 : ℚ)⌉ ≤ ⌈s * 32767⌉ := Int.ceil_le_ceil (by nlinarith)
        have h37 : ⌈(-32767 : ℚ)⌉ = -32767 := by
          rw [show (-32767 : ℚ) = ((-32767 : ℤ) : ℚ) by norm_num, Int.ceil_intCast]
        omega
      · have h0 : ⌈s * 32767⌉ ≤ ⌈(0 : ℚ)⌉ := Int.ceil_le_ceil (by linarith)
        have hz : ⌈(0 : ℚ)⌉ = 0 := by
          rw [show (0 : ℚ) = ((0 : ℤ) : ℚ) by norm_num, Int.ceil_intCast]
        omega
  have hq : quantize_sample s = ratTrunc (s * 32767) := by
    unfold quantize_sample
    omega
  have hv1 : quantize_sample 1 = 32767 := by
    rw [quantize_sample, ratTrunc, if_pos (by norm_num)]
    norm_num
  have hv2 : quantize_sample (-1) = -32767 := by
    rw [quantize_sample, ratTrunc, if_neg (by norm_num),
      show (-1 : ℚ) * 32767 = ((-32767 : ℤ) : ℚ) by norm_num, Int.ceil_intCast]
    norm_num
  have hv3 : quantize_sample 0 = 0 := by
    rw [quantize_sample, ratTrunc, if_pos (by norm_num)]
    norm_num
  refine ⟨hq, by omega, by omega, hv1, hv2, hv3, ?_⟩
  intro sources buf x hx
  simp only [mix, List.mem_map, List.mem_range] at hx
  obtain ⟨i, _, rfl⟩ := hx
  constructor
  · exact le_min (by norm_num) (le_max_left _ _)
  · exact min_le_left _ _

/-- C5 (witness): the amended quantization facts evaluated at the in-range
sample 1/2. -/
theorem C5_witness :
    quantize_sample (1 / 2) = ratTrunc ((1 : ℚ) / 2 * 32767)
    ∧ -32767 ≤ quantize_sample ((1 : ℚ) / 2) ∧ quantize_sample ((1 : ℚ) / 2) ≤ 32767
    ∧ quantize_sample 1 = 32767 ∧ quantize_sample (-1) = -32767
    ∧ quantize_sample 0 = 0
    ∧ (∀ sources buf, ∀ x ∈ mix sources buf, -1 ≤ x ∧ x ≤ 1) :=
  C5_export_quantization (1 / 2) (by norm_num) (by norm_num)

/-- C6 (counterexample): a track `[{t=0, id 0}, {t=1, id 99}, {t=2, id 0}]`
over a database containing only clip 0 = `[1]` renders `[1,0,0]`: the
unresolvable instance at t=1 BREAKS the copy loop, so the perfectly
resolvable instance at t=2 is not rendered, unlike the track with the
missing instance removed, which renders `[1,0,1]`. -/
theorem C6_counterexample :
    Track.render ⟨[⟨0, 0⟩, ⟨1, 99⟩, ⟨2, 0⟩]⟩ ⟨[(0, ⟨[1]⟩)]⟩ 0
        (List.replicate 3 0) = [1, 0, 0]
    ∧ Track.render ⟨[⟨0, 0⟩, ⟨2, 0⟩]⟩ ⟨[(0, ⟨[1]⟩)]⟩ 0
        (List.replicate 3 0) = [1, 0, 1]
    ∧ ([1, 0, 0] : List ℚ) ≠ [1, 0, 1] := by
  refine ⟨by decide, by decide, by decide⟩

/-- C6 (amended): a stored ClipId missing from the database never aborts
(total function, no panic) and the missing instance itself contributes no
samples, but it is not transparently skipped: when the iterative copy loop
selects an instance whose clip is absent it STOPS, leaving the buffer as
already rendered, so instances with later starts are dropped. The ongoing
instance chosen by `clip_at` always resolves, since `clip_at` requires a
defined end. -/
theorem C6_missing_clip_stops_loop :
    (∀ (t : Track) (db : ClipDatabase) (start_time end_time fuel time : Nat)
        (buf : List ℚ) (ci : ClipInstance),
      t.next_clip time = some ci → db.get ci.clip_id = none →
        Track.render_loop t db start_time end_time (fuel + 1) time buf = buf)
    ∧ (∀ (t : Track) (db : ClipDatabase) (time : Nat) (ci : ClipInstance),
        t.clip_at db time = some ci → (db.get ci.clip_id).isSome = true) := by
  constructor
  · intro t db st et fuel time buf ci h hg
    simp only [Track.render_loop, h, hg]
  · intro t db time ci h
    rw [Track.clip_at] at h
    have hp := List.find?_some h
    cases hg : db.get ci.clip_id with
    | some c => rfl
    | none =>
      have he : ci.endTime db = none := by
        simp [ClipInstance.endTime, ClipInstance.len, hg]
      rw [he] at hp
      simp at hp

/-- C6 (witness): the loop-stopping clause evaluated on the counterexample
track: the loop at time 0 selects the unresolvable instance at t=1 and
returns the buffer unchanged. -/
theorem C6_witness :
    Track.render_loop ⟨[⟨0, 0⟩, ⟨1, 99⟩, ⟨2, 0⟩]⟩ ⟨[(0, ⟨[1]⟩)]⟩ 0 3 2 0
        (List.replicate 3 0) = List.replicate 3 0 :=
  C6_missing_clip_stops_loop.1 ⟨[⟨0, 0⟩, ⟨1, 99⟩, ⟨2, 0⟩]⟩ ⟨[(0, ⟨[1]⟩)]⟩ 0 3 1 0
    (List.replicate 3 0) ⟨1, 99⟩ (by decide) (by decide)

/-- C7: `Project::load_overwrite` mutates the project only after `load`
succeeds: a missing `project.json` surfaces as `IoError` and a failed parse as
`LoadProjectError`, and in both cases the current project value — sample rate
and all tracks — is returned unchanged. -/
theorem C7_load_failure_preserves_project (p : PProject) (file : Option String)
    (parse : String → Except (String × Nat × Nat) PProject) :
    (file = none →
      Project.load_overwrite p file parse = (Except.error ProjectError.ioError, p))
    ∧ (∀ s e, file = some s → parse s = Except.error e →
        Project.load_overwrite p file parse =
          (Except.error (ProjectError.loadProjectError e.1 e.2.1 e.2.2), p)) := by
  constructor
  · intro h
    subst h
    rfl
  · intro s e hf hp
    subst hf
    simp [Project.load_overwrite, Project.load, hp]

/-- C7 (witness): loading from an unreadable directory leaves the concrete
project `{44100, []}` untouched and reports `IoError`. -/
theorem C7_witness :
    Project.load_overwrite (PProject.mk 44100 []) none
        (fun _ => Except.error ("x", 1, 2))
      = (Except.error ProjectError.ioError, PProject.mk 44100 []) :=
  (C7_load_failure_preserves_project (PProject.mk 44100 []) none
    (fun _ => Except.error ("x", 1, 2))).1 rfl

/-- C8 (counterexample): nothing constrains clip data — `Clip::new` accepts
any samples, and the repository's own tests store 2.0 and 3.0 — and
`Track::render` copies data verbatim without clamping, so a track holding the
clip `[2]` renders the out-of-range sample 2. -/
theorem C8_counterexample :
    Track.render ⟨[⟨0, 0⟩]⟩ ⟨[(0, ⟨[2]⟩)]⟩ 0 (List.replicate 1 0) = [2]
    ∧ ¬ ((2 : ℚ) ≤ 1) := by
  refine ⟨by decide, by norm_num⟩

/-- C8 (amended): under the intended invariant that every clip stored in the
database has samples in `[-1, 1]`, `Track::render` fills its buffer with
`|buf|` samples each in `[-1, 1]`: every output sample is either silence or a
copied clip sample. -/
theorem C8_render_bounded (t : Track) (db : ClipDatabase) (start_time : Nat)
    (buf : List ℚ)
    (hdb : ∀ (id : ClipId) (c : Clip), db.get id = some c →
      ∀ x ∈ c.data, -1 ≤ x ∧ x ≤ 1) :
    (∀ x ∈ Track.render t db start_time buf, -1 ≤ x ∧ x ≤ 1)
    ∧ (Track.render t db start_time buf).length = buf.length := by
  refine ⟨?_, render_length t db start_time buf⟩
  have hzero : ∀ x ∈ List.replicate buf.length (0 : ℚ), -1 ≤ x ∧ x ≤ 1 := by
    intro x hx
    rw [List.eq_of_mem_replicate hx]
    norm_num
  simp only [Track.render]
  split
  · exact hzero
  · refine render_loop_mem t db _ _ _ hdb _ _ _ ?_
    split
    · split
      · rename_i hclip
        intro x hx
        rcases mem_copy_clip_data _ _ _ _ _ _ hx with h | h
        · exact hzero x h
        · exact hdb _ _ hclip x h
      · exact hzero
    · exact hzero

/-- C8 (witness): the bound evaluated on an empty track over an empty
database. -/
theorem C8_witness :
    (∀ x ∈ Track.render Track.new ⟨[]⟩ 0 [(0 : ℚ)], -1 ≤ x ∧ x ≤ 1)
    ∧ (Track.render Track.new ⟨[]⟩ 0 [(0 : ℚ)]).length = [(0 : ℚ)].length :=
  C8_render_bounded Track.new ⟨[]⟩ 0 [(0 : ℚ)] (fun _ _ h => Option.noConfusion h)

/-- C9: `Timeline::new` builds a four-track timeline, `Timeline::len`'s
`.max().unwrap()` is defined (returns a value rather than panicking) for every
timeline with at least one track — in particular for every constructor-built
timeline — and its panic branch is reached exactly on a zero-track timeline. -/
theorem C9_timeline_len_total (db : ClipDatabase) (tl : Timeline) :
    Timeline.new.tracks.length = 4
    ∧ (Timeline.len_checked Timeline.new db).isSome = true
    ∧ (tl.tracks ≠ [] → (Timeline.len_checked tl db).isSome = true)
    ∧ Timeline.len_checked ⟨[]⟩ db = none := by
  refine ⟨rfl, rfl, ?_, rfl⟩
  intro h
  cases htl : tl.tracks with
  | nil => exact absurd htl h
  | cons a as => simp [Timeline.len_checked, htl]

/-- C9 (witness): the non-panic clause evaluated on a concrete one-track
timeline over the empty database. -/
theorem C9_witness :
    (Timeline.len_checked (Timeline.mk [Track.new]) (ClipDatabase.mk [])).isSome
      = true :=
  (C9_timeline_len_total (ClipDatabase.mk []) (Timeline.mk [Track.new])).2.2.1
    (by simp)

/-- C10: after any sequence of handled messages the sine generator's next
sample lies in `[-1, 1]`; the gate is off initially; with the gate off, `next`
returns exactly 0 and leaves the whole state — in particular the phase —
unchanged; and a NoteOff whose key equals the remembered NoteOn key closes the
gate. -/
theorem C10_sine_bounded_and_gated (r : Nat) (g : SineGenerator)
    (msgs : List MidiMessage) (k v : Nat) :
    (-1 ≤ (SineGenerator.next (SineGenerator.handleAll g msgs)).1
      ∧ (SineGenerator.next (SineGenerator.handleAll g msgs)).1 ≤ 1)
    ∧ (SineGenerator.new r).gate = false
    ∧ (g.gate = false → (SineGenerator.next g).1 = 0 ∧ (SineGenerator.next g).2 = g)
    ∧ (g.note = k → (SineGenerator.handle g (MidiMessage.noteOff k v)).gate = false) := by
  refine ⟨?_, rfl, ?_, ?_⟩
  · rw [SineGenerator.next]
    split
    · constructor
      · norm_num
      · norm_num
    · constructor
      · exact Real.neg_one_le_sin _
      · exact Real.sin_le_one _
  · intro h
    rw [SineGenerator.next, if_pos h]
    exact ⟨rfl, rfl⟩
  · intro h
    simp [SineGenerator.handle, h]

/-- C10 (witness): the freshly constructed generator has its gate off and
produces exact silence without moving. -/
theorem C10_witness :
    (SineGenerator.next (SineGenerator.new 44100)).1 = 0
    ∧ (SineGenerator.next (SineGenerator.new 44100)).2 = SineGenerator.new 44100 :=
  (C10_sine_bounded_and_gated 44100 (SineGenerator.new 44100) [] 69 0).2.2.1 rfl

end Operator
